import Mathlib

/-
Verification development for the trending-YouTube ingestion pipeline
(`sprint_12_trending_youtube_rev_1.py`).

The script is shallowly embedded: pandas DataFrames become association
lists from column names to lists of cell values, file contents become
character lists, the SQLite-backed persisted table becomes the list of
its `trending_date` values, and every fallible Python operation becomes
a total Lean function returning `Option`/`Except` — including the
uncaught `astype(int)` exception that can escape `preprocess_data`.
Library behaviour is modelled by executable Lean code: pandas/Python
string parsers covering the forms the pipeline relies on, the missing
value (`NaT`/NaN) paths of `to_datetime`/`strftime`, and `to_numeric`'s
float64 results via a correctly-rounded decimal-to-binary64 conversion
(round to nearest, ties to even, subnormals and overflow to infinity)
carried out in exact integer arithmetic.  The doc comment of each
definition records the modelling decisions.
-/

set_option maxRecDepth 10000
set_option exponentiation.threshold 1200

/-- A cell of a pandas DataFrame as it occurs in this pipeline: a raw
string (what `read_csv` yields for a present field), an integer (what
the `astype(int)` normalization yields), or a missing value (pandas
`NaN`, produced for fields absent from a short CSV row). -/
inductive Cell where
  | str : String → Cell
  | int : Int → Cell
  | na : Cell
deriving DecidableEq

/-- A pandas DataFrame: an ordered association list from column name to
the list of that column's cell values.  Duplicate column labels do not
arise from `read_csv` (it mangles them), so operations act on the first
matching column. -/
structure DataFrame where
  cols : List (String × List Cell)
deriving DecidableEq

/-- Reading column `name` of a DataFrame (`df[name]`), `none` when the
column is absent (the `name in df.columns` test failing). -/
def lookupCol (df : DataFrame) (name : String) : Option (List Cell) :=
  match df.cols.find? (fun c => c.1 == name) with
  | some c => some c.2
  | none => none

/-- Core of column assignment: replace the values of the first column
named `name` by `f` of them, leaving every other column untouched. -/
def mapColList (name : String) (f : List Cell → List Cell) :
    List (String × List Cell) → List (String × List Cell)
  | [] => []
  | c :: rest =>
    if c.1 == name then (c.1, f c.2) :: rest else c :: mapColList name f rest

/-- Column assignment `df[name] = f(df[name])`; a no-op when the column
is absent (the source guards each assignment with a presence check). -/
def DataFrame.mapCol (df : DataFrame) (name : String) (f : List Cell → List Cell) : DataFrame :=
  ⟨mapColList name f df.cols⟩

/-- pandas `df.empty`: true when the frame has no columns or no rows.
On the rectangular frames the loader produces, "no rows" is the same as
every column being valueless, which is how it is phrased here. -/
def DataFrame.isEmpty (df : DataFrame) : Bool :=
  df.cols.isEmpty || df.cols.all (fun c => c.2.isEmpty)

/-- pandas row count `len(df)` (length of the first column; 0 for a
column-less frame). -/
def DataFrame.nrows (df : DataFrame) : Nat :=
  match df.cols with
  | [] => 0
  | c :: _ => c.2.length

/-- Numeric value of an ASCII digit character. -/
def digitVal (c : Char) : Nat := c.toNat - 48

/-- Natural number denoted by a list of ASCII digits. -/
def natOfDigits (ds : List Char) : Nat :=
  ds.foldl (fun a c => a * 10 + digitVal c) 0

/-- ASCII whitespace stripped by Python's `str.strip()` / numeric
parsers (the full Unicode whitespace set is not modelled). -/
def isPySpace (c : Char) : Bool :=
  c == ' ' || c == '\t' || c == '\n' || c == '\r' || c == '\x0b' || c == '\x0c'

/-- Strip leading and trailing whitespace from a character list. -/
def stripPy (l : List Char) : List Char :=
  ((l.dropWhile isPySpace).reverse.dropWhile isPySpace).reverse

/-- The exact value of a parsed decimal literal: `±num / 10 ^ scale`.
This representation keeps the written value in kernel-computable
integer arithmetic; the float64 rounding step is applied to it
afterwards by `decNumToF64`. -/
structure DecNum where
  neg : Bool
  num : Nat
  scale : Nat
deriving DecidableEq

/-- Mantissa of a decimal literal: digits with an optional single point
(`"10"`, `"3.7"`, `".5"`, `"3."`); at least one digit is required.
Returns the combined digit value, the decimal scale, and the
unconsumed remainder. -/
def parseMantissa (l : List Char) : Option (Nat × Nat × List Char) :=
  let ip := l.takeWhile Char.isDigit
  let r1 := l.dropWhile Char.isDigit
  match r1 with
  | '.' :: r2 =>
    let fp := r2.takeWhile Char.isDigit
    let r3 := r2.dropWhile Char.isDigit
    if ip.isEmpty && fp.isEmpty then none
    else some (natOfDigits (ip ++ fp), fp.length, r3)
  | _ => if ip.isEmpty then none else some (natOfDigits ip, 0, r1)

/-- Exponent digits; `neg` records a leading minus sign. -/
def parseExpDigits (l : List Char) (neg : Bool) : Option (Bool × Nat) :=
  if l.isEmpty || !(l.all Char.isDigit) then none
  else some (neg, natOfDigits l)

/-- Optionally signed exponent digit string. -/
def parseSignedExpDigits : List Char → Option (Bool × Nat)
  | '+' :: r => parseExpDigits r false
  | '-' :: r => parseExpDigits r true
  | r => parseExpDigits r false

/-- Exponent suffix of a decimal literal: empty, or `e`/`E` followed by
an optionally signed digit string. -/
def parseExpPart : List Char → Option (Bool × Nat)
  | [] => some (false, 0)
  | 'e' :: r => parseSignedExpDigits r
  | 'E' :: r => parseSignedExpDigits r
  | _ => none

/-- Fold an exponent into the digits/scale pair: a positive exponent
multiplies the digits, a negative one deepens the decimal scale. -/
def applyExp (num scale : Nat) : Bool × Nat → Nat × Nat
  | (true, e) => (num, scale + e)
  | (false, e) => (num * 10 ^ e, scale)

/-- Unsigned decimal literal with optional exponent, fully consumed. -/
def parseUnsignedNum (l : List Char) : Option (Nat × Nat) :=
  match parseMantissa l with
  | none => none
  | some (num, scale, rest) => (parseExpPart rest).map (applyExp num scale)

/-- Optionally signed decimal literal. -/
def parseSignedNum (l : List Char) : Option DecNum :=
  match l with
  | '+' :: r => (parseUnsignedNum r).map (fun p => ⟨false, p.1, p.2⟩)
  | '-' :: r => (parseUnsignedNum r).map (fun p => ⟨true, p.1, p.2⟩)
  | r => (parseUnsignedNum r).map (fun p => ⟨false, p.1, p.2⟩)

/-- The literal-parsing half of `pd.to_numeric(value, errors='coerce')`
on one string cell: the exact written value of an optionally signed
decimal literal with optional exponent, surrounded by optional
whitespace; `none` otherwise.  `toNumericStr` feeds this exact value
through the float64 rounding step and also recognizes the infinity
spellings. -/
def parseNumeric (s : String) : Option DecNum :=
  parseSignedNum (stripPy s.toList)

/-- A float64 value as `pd.to_numeric` produces it: a finite dyadic
value `±m * 2^q`, a signed infinity, or NaN (missing/unparseable). -/
inductive F64 where
  | finite (neg : Bool) (m : Nat) (q : Int)
  | inf (neg : Bool)
  | nan
deriving DecidableEq

/-- Round the non-negative rational `a / b` to the nearest integer,
ties to even — the rounding step of IEEE-754 binary64 conversion. -/
def rndHalfEven (a b : Nat) : Nat :=
  let q := a / b
  let r := a % b
  if 2 * r < b then q
  else if b < 2 * r then q + 1
  else if q % 2 = 0 then q else q + 1

/-- Is `2^e ≤ n / d`?  The exponent comparison of the binary64
conversion, in exact integer arithmetic. -/
def le2pow (e : Int) (n d : Nat) : Bool :=
  if 0 ≤ e then decide (d * 2 ^ e.toNat ≤ n) else decide (d ≤ n * 2 ^ (-e).toNat)

/-- Scan upward from exponent `e` for the largest exponent whose power
of two still bounds `n / d` from below.  The fuel exceeds the finite
float64 exponent range, so it never runs out on in-range values. -/
def findUp : Nat → Int → Nat → Nat → Int
  | 0, e, _, _ => e
  | fuel + 1, e, n, d => if le2pow (e + 1) n d then findUp fuel (e + 1) n d else e

/-- Scan downward from exponent `e` for the binary exponent of `n / d`;
`none` once the scan passes the least normal exponent -1022 (the value
is subnormal or underflows). -/
def findDown : Nat → Int → Nat → Nat → Option Int
  | 0, _, _, _ => none
  | fuel + 1, e, n, d => if le2pow e n d then some e else findDown fuel (e - 1) n d

/-- The binary exponent `⌊log2 (n / d)⌋` of a positive value, or `none`
when the value lies below `2^-1022` (the subnormal range). -/
def findExp (n d : Nat) : Option Int :=
  if le2pow 0 n d then some (findUp 1100 0 n d) else findDown 1022 (-1) n d

/-- The float64 overflow threshold `2^1024 - 2^970`: a real value whose
magnitude reaches it rounds (ties to even) to infinity. -/
def f64OverflowThreshold : Nat := 2 ^ 1024 - 2 ^ 970

/-- Correctly-rounded decimal-to-binary64 conversion (IEEE-754 round to
nearest, ties to even) of the exact parsed value, in integer
arithmetic: overflow to infinity at the threshold, a 52-bit quantum
below the exponent for normal values, the fixed quantum `2^-1074` for
subnormal values (underflow to zero included). -/
def decNumToF64 (p : DecNum) : F64 :=
  let d := 10 ^ p.scale
  if p.num = 0 then F64.finite p.neg 0 0
  else if f64OverflowThreshold * d ≤ p.num then F64.inf p.neg
  else
    match findExp p.num d with
    | none => F64.finite p.neg (rndHalfEven (p.num * 2 ^ 1074) d) (-1074)
    | some e =>
      if 0 ≤ e - 52 then F64.finite p.neg (rndHalfEven p.num (d * 2 ^ (e - 52).toNat)) (e - 52)
      else F64.finite p.neg (rndHalfEven (p.num * 2 ^ (52 - e).toNat) d) (e - 52)

/-- The infinity spellings `inf` and `infinity` (any letter case) that
`pd.to_numeric` accepts. -/
def isInfSpelling (l : List Char) : Bool :=
  let low := l.map Char.toLower
  low == "inf".toList || low == "infinity".toList

/-- Model of `pd.to_numeric(value, errors='coerce')` on one string
cell: an infinity spelling gives a signed infinity; a decimal literal
is parsed exactly and rounded to the nearest binary64 (overflowing
literals such as `1e400` also give infinity); anything else is the NaN
outcome. -/
def toNumericStr (s : String) : F64 :=
  let l := stripPy s.toList
  let core := match l with
    | '+' :: r => r
    | '-' :: r => r
    | r => r
  let neg := match l with
    | '-' :: _ => true
    | _ => false
  if isInfSpelling core then F64.inf neg
  else
    match parseNumeric s with
    | some p => decNumToF64 p
    | none => F64.nan

/-- numpy's float-to-int cast in `astype(int)` on a finite float64:
truncation toward zero — the dyadic magnitude is floor-divided by the
quantum and the sign is reattached (not rounding to nearest). -/
def truncF64 (neg : Bool) (m : Nat) (q : Int) : ℤ :=
  let mag : Nat := if 0 ≤ q then m * 2 ^ q.toNat else m / 2 ^ (-q).toNat
  if neg then -(mag : ℤ) else (mag : ℤ)

/-- One cell of `pd.to_numeric(col, errors='coerce').fillna(0)
.astype(int)`: a finite number passes through truncated toward zero,
unparseable strings and missing values become 0 via the NaN-then-fill
path, and a non-finite value makes the un-guarded `astype(int)` raise —
modelled as `Except.error`, which `preprocess_data` propagates. -/
def coerceCell : Cell → Except String Cell
  | Cell.str s =>
    match toNumericStr s with
    | F64.finite neg m q => Except.ok (Cell.int (truncF64 neg m q))
    | F64.inf _ => Except.error "ValueError: cannot convert non-finite values (NA or inf) to integer"
    | F64.nan => Except.ok (Cell.int 0)
  | Cell.int n => Except.ok (Cell.int n)
  | Cell.na => Except.ok (Cell.int 0)

/-- A calendar date, the payload a successful `pd.to_datetime` parse
keeps after the time-of-day part is discarded by
`strftime('%Y-%m-%d')`. -/
structure SimpleDate where
  year : Nat
  month : Nat
  day : Nat
deriving DecidableEq

/-- Gregorian leap-year rule, used to validate day-of-month the way
`pd.to_datetime` does. -/
def isLeapYear (y : Nat) : Bool :=
  (y % 4 == 0 && y % 100 != 0) || (y % 400 == 0)

/-- Number of days in a month. -/
def daysInMonth (y m : Nat) : Nat :=
  if m == 2 then (if isLeapYear y then 29 else 28)
  else if m == 4 || m == 6 || m == 9 || m == 11 then 30
  else 31

/-- Validates the time-of-day part `HH:MM` or `HH:MM:SS` (fields of one
or two digits, hours below 24, minutes and seconds below 60) that
`pd.to_datetime` accepts after the date. -/
def isValidTime (l : List Char) : Bool :=
  let hs := l.takeWhile Char.isDigit
  let r1 := l.dropWhile Char.isDigit
  if hs.length == 0 || hs.length > 2 || natOfDigits hs ≥ 24 then false
  else
    match r1 with
    | ':' :: r2 =>
      let ms := r2.takeWhile Char.isDigit
      let r3 := r2.dropWhile Char.isDigit
      if ms.length == 0 || ms.length > 2 || natOfDigits ms ≥ 60 then false
      else
        match r3 with
        | [] => true
        | ':' :: r4 =>
          let ss := r4.takeWhile Char.isDigit
          let r5 := r4.dropWhile Char.isDigit
          if ss.length == 0 || ss.length > 2 || natOfDigits ss ≥ 60 then false
          else r5.isEmpty
        | _ => false
    | _ => false

/-- Model of the date-format inference of `pd.to_datetime` on one
string: ISO-ordered dates `YYYY-M[M]-D[D]`, optionally followed by `T`
or a space and a time of day, with calendar validation.  The further
inferred formats (month names, day-first orders, fractional seconds,
timezones) are outside the model; a string outside the modelled subset
is an unparseable date. -/
def parseDateChars : List Char → Option SimpleDate
  | y1 :: y2 :: y3 :: y4 :: '-' :: rest =>
    if y1.isDigit && y2.isDigit && y3.isDigit && y4.isDigit then
      let y := digitVal y1 * 1000 + digitVal y2 * 100 + digitVal y3 * 10 + digitVal y4
      let mds := rest.takeWhile Char.isDigit
      let r1 := rest.dropWhile Char.isDigit
      match r1 with
      | '-' :: r2 =>
        let dds := r2.takeWhile Char.isDigit
        let r3 := r2.dropWhile Char.isDigit
        if mds.length == 0 || mds.length > 2 || dds.length == 0 || dds.length > 2 then none
        else
          let m := natOfDigits mds
          let d := natOfDigits dds
          if 1 ≤ m && m ≤ 12 && 1 ≤ d && d ≤ daysInMonth y m &&
             (r3.isEmpty ||
              ((r3.headD ' ' == 'T' || r3.headD ' ' == ' ') && isValidTime (r3.drop 1)))
          then some ⟨y, m, d⟩ else none
      | _ => none
    else none
  | _ => none

/-- Two-digit zero-padded decimal string (strftime `%m`, `%d`). -/
def pad2 (n : Nat) : String :=
  if n < 10 then "0" ++ toString n else toString n

/-- Four-digit zero-padded decimal string (strftime `%Y`). -/
def pad4 (n : Nat) : String :=
  if n < 10 then "000" ++ toString n
  else if n < 100 then "00" ++ toString n
  else if n < 1000 then "0" ++ toString n
  else toString n

/-- `strftime('%Y-%m-%d')` of a parsed date. -/
def formatDate (d : SimpleDate) : String :=
  pad4 d.year ++ "-" ++ pad2 d.month ++ "-" ++ pad2 d.day

/-- `pd.to_datetime` followed by `.dt.strftime('%Y-%m-%d')` on one
cell: a missing value converts to `NaT` without raising and `strftime`
renders `NaT` back as a missing value (the empty string is among the
spellings `to_datetime` treats as missing); a parseable string is
rewritten to the formatted date; an unparseable non-missing string
raises, modelled as `none`.  Integer cells do not occur in the date
column of loaded frames (the loader yields strings and missing values),
so `to_datetime`'s epoch-integer interpretation is outside the model
and such cells are mapped to the raising outcome. -/
def dateCellConv : Cell → Option Cell
  | Cell.na => some Cell.na
  | Cell.int _ => none
  | Cell.str s =>
    if s = "" then some Cell.na
    else
      match parseDateChars s.toList with
      | some d => some (Cell.str (formatDate d))
      | none => none

/-- All-or-nothing traversal: `some` of all results when every element
parses, `none` as soon as one fails. -/
def traverseOption (p : α → Option β) : List α → Option (List β)
  | [] => some []
  | a :: as =>
    match p a, traverseOption p as with
    | some b, some bs => some (b :: bs)
    | _, _ => none

/-- Error-propagating traversal: `ok` of all results when every element
succeeds, the first `error` otherwise. -/
def traverseExcept (p : α → Except ε β) : List α → Except ε (List β)
  | [] => Except.ok []
  | a :: as =>
    match p a, traverseExcept p as with
    | Except.ok b, Except.ok bs => Except.ok (b :: bs)
    | Except.error e, _ => Except.error e
    | Except.ok _, Except.error e => Except.error e

/-- The `try` block over the `trending_date` column:
`pd.to_datetime(col)` followed by `.dt.strftime('%Y-%m-%d')`.
`to_datetime` raises on the first unparseable non-missing value, the
`except` handler swallows the exception, and the column keeps its
original values; otherwise every cell is rewritten per `dateCellConv`
(missing values staying missing), so columns mixing dates with missing
values are partially converted. -/
def convertDates (vs : List Cell) : List Cell :=
  match traverseOption dateCellConv vs with
  | some ws => ws
  | none => vs

/-- Model of `preprocess_data(df, threshold=0.5)`: an empty frame is
returned unchanged; otherwise the `trending_date` column is reformatted
(inside the source's try/except, so never raising) and then the
`videos_count` column is coerced cell by cell — that block has no
try/except, so the `astype(int)` raise on a non-finite value propagates
out of the function, modelled as `Except.error`.  The `threshold`
parameter is accepted and, like in the source (whose row-filtering
block is commented out), never used. -/
def preprocess_data (df : DataFrame) (threshold : ℚ) : Except String DataFrame :=
  if df.isEmpty then Except.ok df
  else
    match lookupCol (df.mapCol "trending_date" convertDates) "videos_count" with
    | none => Except.ok (df.mapCol "trending_date" convertDates)
    | some vs =>
      match traverseExcept coerceCell vs with
      | Except.error e => Except.error e
      | Except.ok ws =>
        Except.ok ((df.mapCol "trending_date" convertDates).mapCol "videos_count" (fun _ => ws))

/-- Split a character list on a separator; always returns at least one
(possibly empty) group, like Python's `str.split(sep)`. -/
def splitOnChar (sep : Char) : List Char → List (List Char)
  | [] => [[]]
  | c :: rest =>
    let r := splitOnChar sep rest
    if c == sep then [] :: r
    else
      match r with
      | [] => [[c]]
      | g :: gs => (c :: g) :: gs

/-- Drop a single trailing carriage return, the `\x0d\x0a` line-end
handling of the CSV reader. -/
def dropCR (l : List Char) : List Char :=
  match l.getLast? with
  | some '\r' => l.dropLast
  | _ => l

/-- Model of `pd.read_csv(path, encoding='latin1', sep=',')` on decoded
file text: newline-split lines (blank lines skipped, as by
`skip_blank_lines`), the first line the header, comma-split fields.  A
file with no lines raises `EmptyDataError`; a data row with more fields
than the header raises a tokenizing `ParserError`; a short row's
missing fields become missing values.  Quoting, dtype inference and
duplicate-header mangling are outside the model (cells stay strings). -/
def parse_csv (content : List Char) : Except String DataFrame :=
  let lines := ((splitOnChar '\n' content).map dropCR).filter (fun ln => !ln.isEmpty)
  match lines with
  | [] => Except.error "EmptyDataError: no columns to parse from file"
  | header :: dataLines =>
    let names := splitOnChar ',' header
    let rows := dataLines.map (splitOnChar ',')
    if rows.any (fun r => names.length < r.length) then
      Except.error "ParserError: a row has more fields than the header"
    else
      Except.ok ⟨names.enum.map (fun p =>
        (String.mk p.2, rows.map (fun r =>
          match r.get? p.1 with
          | some cell => Cell.str (String.mk cell)
          | none => Cell.na)))⟩

/-- Model of `load_data(file_path)`: the filesystem is a partial map
from path to decoded text.  A missing file (`FileNotFoundError`) or any
parse exception yields the empty DataFrame instead of propagating. -/
def load_data (fs : String → Option (List Char)) (path : String) : DataFrame :=
  match fs path with
  | none => ⟨[]⟩
  | some content =>
    match parse_csv content with
    | Except.ok df => df
    | Except.error _ => ⟨[]⟩

/-- The fixed-length window of the anchored regex
`trending_by_time_(\d{4})\.csv$`: succeeds exactly on a 25-character
list of the literal form with four ASCII digits, yielding their
value. -/
def matchTail25 : List Char → Option Nat
  | 't' :: 'r' :: 'e' :: 'n' :: 'd' :: 'i' :: 'n' :: 'g' :: '_' :: 'b' :: 'y' :: '_' ::
    't' :: 'i' :: 'm' :: 'e' :: '_' :: a :: b :: c :: d :: '.' :: 'c' :: 's' :: 'v' :: [] =>
    if a.isDigit && b.isDigit && c.isDigit && d.isDigit then
      some (digitVal a * 1000 + digitVal b * 100 + digitVal c * 10 + digitVal d)
    else none
  | _ => none

/-- Guarded window match: the pattern instance must be exactly the
remaining 25 characters (the `$` anchor). -/
def matchTail (l : List Char) : Option Nat :=
  if l.length = 25 then matchTail25 l else none

/-- `re.search` for the anchored pattern: try the window at every
position.  Because the pattern is end-anchored and fixed-length, at
most one position can match. -/
def regexSearchYear : List Char → Option Nat
  | [] => none
  | c :: rest =>
    match matchTail (c :: rest) with
    | some y => some y
    | none => regexSearchYear rest

/-- Python's `s[-4:]`: the last `n` characters (the whole list when it
is shorter). -/
def takeLast (n : Nat) (l : List Char) : List Char :=
  l.drop (l.length - n)

/-- The fallback slice `file_path.split('/')[-1].split('.')[0][-4:]`:
last path component, stem before the first dot, last four
characters. -/
def fallbackSlice (l : List Char) : List Char :=
  takeLast 4 ((splitOnChar '.' ((splitOnChar '/' l).getLastD [])).headD [])

/-- Digit run of a Python integer literal after its first digit: single
underscores are permitted between digits (PEP 515), never doubled or
trailing. -/
def digitsUnder (acc : Nat) : List Char → Option Nat
  | [] => some acc
  | '_' :: c :: rest =>
    if c.isDigit then digitsUnder (acc * 10 + digitVal c) rest else none
  | '_' :: [] => none
  | c :: rest =>
    if c.isDigit then digitsUnder (acc * 10 + digitVal c) rest else none

/-- Nonempty digit run starting a Python integer literal. -/
def pyIntDigits (l : List Char) : Option Nat :=
  match l with
  | [] => none
  | c :: rest => if c.isDigit then digitsUnder (digitVal c) rest else none

/-- Model of Python `int(str)`: optional surrounding whitespace, an
optional sign, then ASCII digits with optional underscore grouping;
`none` models the `ValueError` path.  Non-ASCII digits are outside the
model. -/
def pyInt (l : List Char) : Option Int :=
  match stripPy l with
  | '+' :: r => (pyIntDigits r).map (fun n => (n : Int))
  | '-' :: r => (pyIntDigits r).map (fun n => -(n : Int))
  | r => (pyIntDigits r).map (fun n => (n : Int))

/-- Model of `extract_year_from_path`: the anchored regex first; on no
match, Python `int()` of the fallback slice, with the `ValueError`
handler turning parse failure into `none`.  The function is total, so
no exception escapes its boundary. -/
def extract_year_from_path (l : List Char) : Option Int :=
  match regexSearchYear l with
  | some y => some (y : Int)
  | none => pyInt (fallbackSlice l)

/-- One candidate input file of the ingestion loop, abstracted to what
the skip-or-append decision observes: the year extracted from its
filename (the directory filter guarantees the strict pattern, so
extraction always succeeds), and the `trending_date` values of the rows
produced by load-plus-normalize (the other columns do not affect
per-year bookkeeping). -/
structure IngestFile where
  year : Nat
  rows : List String
deriving DecidableEq

/-- The SQL predicate `trending_date LIKE :year_pattern` with pattern
`f"{year}-%"`: the date string starts with the decimal year and a
dash. -/
def dateInYear (y : Nat) (d : String) : Bool :=
  ((Nat.repr y).toList ++ ['-']).isPrefixOf d.toList

/-- Model of `data_already_exist`: does any persisted row's
`trending_date` begin with `"{year}-"`?  The persisted table is its
list of `trending_date` values; a missing table is the empty list, so
the operational-error branch that returns `False` is subsumed. -/
def existsForYear (state : List String) (y : Nat) : Bool :=
  state.any (dateInYear y)

/-- One iteration of the `__main__` loop for one matching file: skip
when the year already exists, skip when the loaded-and-normalized table
is empty, otherwise append all rows (`to_sql(if_exists='append')`). -/
def ingestStep (state : List String) (f : IngestFile) : List String :=
  if existsForYear state f.year then state
  else if f.rows.isEmpty then state
  else state ++ f.rows

/-- One full ingestion run: the loop over the directory's matching
files in listing order, threading the persisted table. -/
def runIngestion (files : List IngestFile) (state : List String) : List String :=
  files.foldl ingestStep state

/-- Number of persisted rows whose `trending_date` lies in year `y`. -/
def yearCount (state : List String) (y : Nat) : Nat :=
  (state.filter (dateInYear y)).length

/-- Prepend a recognized option/value pair to a `getopt` result. -/
def consOpt (ov : List Char × List Char)
    (r : Except String (List (List Char × List Char) × List (List Char))) :
    Except String (List (List Char × List Char) × List (List Char)) :=
  match r with
  | Except.error e => Except.error e
  | Except.ok (os, extra) => Except.ok (ov :: os, extra)

/-- Model of `getopt.getopt(args, 'f:', ['file='])`: scan arguments
until the first non-option (or a bare `-` / terminating `--`).  A long
option is recognized when its name is a prefix of `file` (getopt's
unique-abbreviation rule) and requires a value, taken after `=` or from
the next argument; the only short option is `-f`, which takes the rest
of its cluster or the next argument.  Unknown options and missing
values raise `GetoptError`, modelled as `Except.error`. -/
def getoptModel : List (List Char) →
    Except String (List (List Char × List Char) × List (List Char))
  | [] => Except.ok ([], [])
  | arg :: rest =>
    if arg == ['-', '-'] then Except.ok ([], rest)
    else if arg.take 2 == ['-', '-'] then
      let body := arg.drop 2
      let name := body.takeWhile (fun c => !(c == '='))
      if !(name.isPrefixOf "file".toList) then
        Except.error "option not recognized"
      else if body.any (fun c => c == '=') then
        consOpt ("--file".toList, (body.dropWhile (fun c => !(c == '='))).drop 1)
          (getoptModel rest)
      else
        match rest with
        | [] => Except.error "option --file requires argument"
        | nxt :: rest2 => consOpt ("--file".toList, nxt) (getoptModel rest2)
    else if arg.take 1 == ['-'] && arg != ['-'] then
      match arg.drop 1 with
      | [] => Except.ok ([], arg :: rest)
      | c :: cluster =>
        if c == 'f' then
          match cluster with
          | _ :: _ => consOpt (['-', 'f'], cluster) (getoptModel rest)
          | [] =>
            match rest with
            | [] => Except.error "option -f requires argument"
            | nxt :: rest2 => consOpt (['-', 'f'], nxt) (getoptModel rest2)
        else Except.error "option not recognized"
    else Except.ok ([], arg :: rest)

/-- Model of `parse_arguments()` on `sys.argv[1:]`: on `getopt.error`
the script prints and calls `sys.exit(2)`, modelled as
`Except.error 2`; otherwise the last `-f`/`--file` value (initially the
empty path) is returned. -/
def parse_arguments (argv : List (List Char)) : Except Nat (List Char) :=
  match getoptModel argv with
  | Except.error _ => Except.error 2
  | Except.ok (opts, _) =>
    Except.ok (opts.foldl
      (fun fp ov => if ov.1 == ['-', 'f'] || ov.1 == "--file".toList then ov.2 else fp) [])

/-- The environment facts the `__main__` block's exit code depends
on: whether the database directory can be created, whether the SQLite
engine connects, and whether the `data/` directory exists. -/
structure MainEnv where
  dbDirCreatable : Bool
  dbConnectable : Bool
  dataDirPresent : Bool
deriving DecidableEq

/-- Exit code of the `__main__` block: 1 from `create_db_engine` when
the database directory cannot be created or the engine cannot connect,
1 when the data directory is missing, else 0 (the per-file loop,
validation and export catch their exceptions and never exit).  The
command-line arguments are accepted but never inspected: `__main__`
neither calls `parse_arguments` nor reads `sys.argv`. -/
def mainExitCode (argv : List (List Char)) (env : MainEnv) : Nat :=
  if !env.dbDirCreatable then 1
  else if !env.dbConnectable then 1
  else if !env.dataDirPresent then 1
  else 0

/-- The last 24 characters of a strict-pattern filename,
`rending_by_time_abcd.csv`. -/
def patRest (a b c d : Char) : List Char :=
  'r' :: 'e' :: 'n' :: 'd' :: 'i' :: 'n' :: 'g' :: '_' :: 'b' :: 'y' :: '_' ::
  't' :: 'i' :: 'm' :: 'e' :: '_' :: a :: b :: c :: d :: '.' :: 'c' :: 's' :: 'v' :: []

/-- The full 25-character window `trending_by_time_abcd.csv` that the
anchored regex requires at the end of a path. -/
def patWindow (a b c d : Char) : List Char :=
  't' :: patRest a b c d

theorem find?_mapColList_self (n : String) (f : List Cell → List Cell) :
    ∀ cs : List (String × List Cell),
      (mapColList n f cs).find? (fun c => c.1 == n) =
        (cs.find? (fun c => c.1 == n)).map (fun c => (c.1, f c.2))
  | [] => by simp [mapColList]
  | c :: rest => by
    by_cases h : (c.1 == n) = true
    · simp [mapColList, h, List.find?_cons_of_pos]
    · have h2 : (c.1 == n) = false := by simpa using h
      simp [mapColList, h2, List.find?_cons_of_neg, find?_mapColList_self n f rest]

theorem find?_mapColList_ne (n m : String) (f : List Cell → List Cell) (hmn : m ≠ n) :
    ∀ cs : List (String × List Cell),
      (mapColList n f cs).find? (fun c => c.1 == m) = cs.find? (fun c => c.1 == m)
  | [] => by simp [mapColList]
  | c :: rest => by
    by_cases h : (c.1 == n) = true
    · have hc : c.1 = n := by simpa using h
      have hm : (c.1 == m) = false := by simp [hc]; exact fun he => hmn he.symm
      simp [mapColList, h, hm, List.find?_cons_of_neg]
    · have h2 : (c.1 == n) = false := by simpa using h
      by_cases hm : (c.1 == m) = true
      · simp [mapColList, h2, hm, List.find?_cons_of_pos]
      · have hm2 : (c.1 == m) = false := by simpa using hm
        simp [mapColList, h2, hm2, List.find?_cons_of_neg,
          find?_mapColList_ne n m f hmn rest]

theorem lookupCol_mapCol_self (df : DataFrame) (n : String) (f : List Cell → List Cell) :
    lookupCol (df.mapCol n f) n = (lookupCol df n).map f := by
  unfold lookupCol DataFrame.mapCol
  rw [find?_mapColList_self]
  cases df.cols.find? (fun c => c.1 == n) <;> simp

theorem lookupCol_mapCol_ne (df : DataFrame) (n m : String) (f : List Cell → List Cell)
    (hmn : m ≠ n) : lookupCol (df.mapCol n f) m = lookupCol df m := by
  unfold lookupCol DataFrame.mapCol
  rw [find?_mapColList_ne n m f hmn]

theorem lookupCol_of_isEmpty (df : DataFrame) (n : String) (vs : List Cell)
    (h : lookupCol df n = some vs) (he : df.isEmpty = true) : vs = [] := by
  unfold lookupCol at h
  cases hf : df.cols.find? (fun c => c.1 == n) with
  | none => rw [hf] at h; exact absurd h (by simp)
  | some c =>
    rw [hf] at h
    have hvs : vs = c.2 := by injection h with h; exact h.symm
    unfold DataFrame.isEmpty at he
    rcases Bool.or_eq_true_iff.mp he with h1 | h1
    · have : df.cols = [] := List.isEmpty_iff.mp h1
      rw [this] at hf; exact absurd hf (by simp)
    · have hmem := List.mem_of_find?_eq_some hf
      have := (List.all_eq_true.mp h1) c hmem
      rw [hvs]
      exact List.isEmpty_iff.mp this

theorem lookupCol_preprocess_dates (df : DataFrame) (t : ℚ) (vs : List Cell) (df2 : DataFrame)
    (h : lookupCol df "trending_date" = some vs)
    (hok : preprocess_data df t = Except.ok df2) :
    lookupCol df2 "trending_date" = some (convertDates vs) := by
  unfold preprocess_data at hok
  by_cases he : df.isEmpty = true
  · rw [if_pos he] at hok
    cases hok
    have hnil := lookupCol_of_isEmpty df _ vs h he
    rw [h, hnil]
    rfl
  · rw [if_neg he] at hok
    have hdd : lookupCol (df.mapCol "trending_date" convertDates) "trending_date" =
        some (convertDates vs) := by
      rw [lookupCol_mapCol_self, h]
      rfl
    cases hvc : lookupCol (df.mapCol "trending_date" convertDates) "videos_count" with
    | none =>
      rw [hvc] at hok
      cases hok
      exact hdd
    | some vs2 =>
      rw [hvc] at hok
      have hok2 : (match traverseExcept coerceCell vs2 with
          | Except.error e => Except.error e
          | Except.ok ws =>
            Except.ok ((df.mapCol "trending_date" convertDates).mapCol "videos_count"
              (fun _ => ws))) = Except.ok df2 := hok
      cases hte : traverseExcept coerceCell vs2 with
      | error e =>
        rw [hte] at hok2
        exact absurd hok2 (by simp)
      | ok ws =>
        rw [hte] at hok2
        cases hok2
        rw [lookupCol_mapCol_ne _ _ _ _ (by decide)]
        exact hdd

theorem lookupCol_preprocess_counts (df : DataFrame) (t : ℚ) (vs : List Cell)
    (h : lookupCol df "videos_count" = some vs) :
    (∀ ws, traverseExcept coerceCell vs = Except.ok ws →
      ∃ df2, preprocess_data df t = Except.ok df2 ∧ lookupCol df2 "videos_count" = some ws) ∧
    (∀ e, traverseExcept coerceCell vs = Except.error e →
      preprocess_data df t = Except.error e) := by
  by_cases he : df.isEmpty = true
  · have hnil := lookupCol_of_isEmpty df _ vs h he
    subst hnil
    constructor
    · intro ws hws
      have h2 : (Except.ok [] : Except String (List Cell)) = Except.ok ws := hws
      cases h2
      refine ⟨df, ?_, h⟩
      unfold preprocess_data
      rw [if_pos he]
    · intro e hws
      have h2 : (Except.ok [] : Except String (List Cell)) = Except.error e := hws
      exact absurd h2 (by simp)
  · have hvc : lookupCol (df.mapCol "trending_date" convertDates) "videos_count" = some vs := by
      rw [lookupCol_mapCol_ne _ _ _ _ (by decide)]
      exact h
    constructor
    · intro ws hws
      refine ⟨(df.mapCol "trending_date" convertDates).mapCol "videos_count" (fun _ => ws),
        ?_, ?_⟩
      · unfold preprocess_data
        rw [if_neg he, hvc]
        show (match traverseExcept coerceCell vs with
          | Except.error e => Except.error e
          | Except.ok ws2 =>
            Except.ok ((df.mapCol "trending_date" convertDates).mapCol "videos_count"
              (fun _ => ws2))) = _
        rw [hws]
      · rw [lookupCol_mapCol_self, hvc]
        rfl
    · intro e hws
      unfold preprocess_data
      rw [if_neg he, hvc]
      show (match traverseExcept coerceCell vs with
        | Except.error e2 => Except.error e2
        | Except.ok ws2 =>
          Except.ok ((df.mapCol "trending_date" convertDates).mapCol "videos_count"
            (fun _ => ws2))) = _
      rw [hws]

theorem traverseOption_eq_none (p : α → Option β) :
    ∀ l : List α, traverseOption p l = none → ∃ a ∈ l, p a = none
  | [], h => by simp [traverseOption] at h
  | a :: as, h => by
    unfold traverseOption at h
    cases hpa : p a with
    | none => exact ⟨a, by simp, hpa⟩
    | some b =>
      cases hta : traverseOption p as with
      | none =>
        obtain ⟨x, hx, hpx⟩ := traverseOption_eq_none p as hta
        exact ⟨x, by simp [hx], hpx⟩
      | some bs => rw [hpa, hta] at h; exact absurd h (by simp)

theorem traverseOption_get_pointwise (p : α → Option β) :
    ∀ l bs, traverseOption p l = some bs → ∀ i, bs.get? i = (l.get? i).bind p
  | [], bs, h => by
    have h2 : (some [] : Option (List β)) = some bs := h
    cases h2
    intro i
    cases i <;> rfl
  | a :: as, bs, h => by
    unfold traverseOption at h
    cases hpa : p a with
    | none => rw [hpa] at h; exact absurd h (by simp)
    | some b =>
      cases hta : traverseOption p as with
      | none => rw [hpa, hta] at h; exact absurd h (by simp)
      | some bs2 =>
        rw [hpa, hta] at h
        have h2 : (some (b :: bs2) : Option (List β)) = some bs := h
        cases h2
        intro i
        cases i with
        | zero => simpa using hpa.symm
        | succ i2 => simpa using traverseOption_get_pointwise p as bs2 hta i2

theorem traverseExcept_ok_length (p : α → Except ε β) :
    ∀ l bs, traverseExcept p l = Except.ok bs → bs.length = l.length
  | [], bs, h => by
    have h2 : (Except.ok [] : Except ε (List β)) = Except.ok bs := h
    cases h2
    rfl
  | a :: as, bs, h => by
    unfold traverseExcept at h
    cases hpa : p a with
    | error e => rw [hpa] at h; exact absurd h (by simp)
    | ok b =>
      cases hta : traverseExcept p as with
      | error e => rw [hpa, hta] at h; exact absurd h (by simp)
      | ok bs2 =>
        rw [hpa, hta] at h
        have h2 : (Except.ok (b :: bs2) : Except ε (List β)) = Except.ok bs := h
        cases h2
        rw [List.length_cons, List.length_cons, traverseExcept_ok_length p as bs2 hta]

theorem traverseExcept_ok_mem (p : α → Except ε β) :
    ∀ l bs, traverseExcept p l = Except.ok bs → ∀ b ∈ bs, ∃ a ∈ l, p a = Except.ok b
  | [], bs, h => by
    have h2 : (Except.ok [] : Except ε (List β)) = Except.ok bs := h
    cases h2
    intro b hb
    exact absurd hb (List.not_mem_nil b)
  | a :: as, bs, h => by
    unfold traverseExcept at h
    cases hpa : p a with
    | error e => rw [hpa] at h; exact absurd h (by simp)
    | ok b0 =>
      cases hta : traverseExcept p as with
      | error e => rw [hpa, hta] at h; exact absurd h (by simp)
      | ok bs2 =>
        rw [hpa, hta] at h
        have h2 : (Except.ok (b0 :: bs2) : Except ε (List β)) = Except.ok bs := h
        cases h2
        intro b hb
        rcases List.mem_cons.mp hb with hbe | hbt
        · refine ⟨a, List.mem_cons_self a as, ?_⟩
          rw [hbe]
          exact hpa
        · obtain ⟨a2, ha2, hpa2⟩ := traverseExcept_ok_mem p as bs2 hta b hbt
          exact ⟨a2, List.mem_cons_of_mem a ha2, hpa2⟩

theorem traverseExcept_ok_get (p : α → Except ε β) :
    ∀ l bs, traverseExcept p l = Except.ok bs →
      ∀ i a, l.get? i = some a → ∃ b, p a = Except.ok b ∧ bs.get? i = some b
  | [], bs, h => by
    intro i a hi
    exact absurd hi (by cases i <;> simp)
  | x :: xs, bs, h => by
    unfold traverseExcept at h
    cases hpx : p x with
    | error e => rw [hpx] at h; exact absurd h (by simp)
    | ok b0 =>
      cases htx : traverseExcept p xs with
      | error e => rw [hpx, htx] at h; exact absurd h (by simp)
      | ok bs2 =>
        rw [hpx, htx] at h
        have h2 : (Except.ok (b0 :: bs2) : Except ε (List β)) = Except.ok bs := h
        cases h2
        intro i a hi
        cases i with
        | zero =>
          have hax : (some x : Option α) = some a := hi
          cases hax
          exact ⟨b0, hpx, rfl⟩
        | succ i2 =>
          obtain ⟨b, hb, hbi⟩ := traverseExcept_ok_get p xs bs2 htx i2 a (by simpa using hi)
          exact ⟨b, hb, by simpa using hbi⟩

theorem coerceCell_ok_int (a w : Cell) (h : coerceCell a = Except.ok w) :
    ∃ n : ℤ, w = Cell.int n := by
  cases a with
  | str s =>
    cases hts : toNumericStr s with
    | finite neg m q =>
      simp [coerceCell, hts] at h
      exact ⟨truncF64 neg m q, h.symm⟩
    | inf neg => simp [coerceCell, hts] at h
    | nan =>
      simp [coerceCell, hts] at h
      exact ⟨0, h.symm⟩
  | int n =>
    simp [coerceCell] at h
    exact ⟨n, h.symm⟩
  | na =>
    simp [coerceCell] at h
    exact ⟨0, h.symm⟩

/-- C2 counterexample: a `trending_date` column holding a parseable
date and a missing value (the ordinary outcome of a short CSV row): the
date cell is rewritten to `2020-05-01` while the missing cell stays
missing (`to_datetime` maps it to `NaT` without raising, `strftime`
renders it missing again), so the returned column is neither the
original one nor made of `YYYY-MM-DD` strings throughout — the claimed
all-or-nothing dichotomy fails. -/
theorem c2_counterexample :
    preprocess_data (DataFrame.mk
        [("trending_date", [Cell.str "2020-05-01T10:00:00", Cell.na])]) (1 / 2) =
      Except.ok (DataFrame.mk [("trending_date", [Cell.str "2020-05-01", Cell.na])]) ∧
    [Cell.str "2020-05-01", Cell.na] ≠ [Cell.str "2020-05-01T10:00:00", Cell.na] ∧
    (∀ s : String, Cell.na ≠ Cell.str s) :=
  ⟨rfl, by decide, fun _ hs => Cell.noConfusion hs⟩

/-- C2 (amended): on any table with a `trending_date` column, when
`preprocess_data` returns a table, the column obeys a three-outcome
contract: if some non-missing value is unparseable, the conversion
raises, is swallowed, and the entire column keeps its original values
(atomicity against bad values); otherwise each cell converts
individually — parseable strings are rewritten to the `YYYY-MM-DD`
form and missing values stay missing — so columns mixing dates with
missing values are partially converted rather than left unchanged. -/
theorem c2_date_column_outcomes (df : DataFrame) (t : ℚ) (vs : List Cell) (df2 : DataFrame)
    (h : lookupCol df "trending_date" = some vs)
    (hok : preprocess_data df t = Except.ok df2) :
    ((∃ v ∈ vs, dateCellConv v = none) ∧
      lookupCol df2 "trending_date" = some vs) ∨
    (∃ ws, traverseOption dateCellConv vs = some ws ∧
      lookupCol df2 "trending_date" = some ws ∧
      (∀ i s d, vs.get? i = some (Cell.str s) → parseDateChars s.toList = some d →
        ws.get? i = some (Cell.str (formatDate d))) ∧
      (∀ i, vs.get? i = some Cell.na → ws.get? i = some Cell.na)) := by
  have hl := lookupCol_preprocess_dates df t vs df2 h hok
  cases ht : traverseOption dateCellConv vs with
  | none =>
    left
    refine ⟨traverseOption_eq_none _ _ ht, ?_⟩
    rw [hl]
    unfold convertDates
    rw [ht]
  | some ws =>
    right
    refine ⟨ws, rfl, ?_, ?_, ?_⟩
    · rw [hl]
      unfold convertDates
      rw [ht]
    · intro i s d hi hd
      have hp := traverseOption_get_pointwise _ _ _ ht i
      rw [hi] at hp
      rw [hp]
      show dateCellConv (Cell.str s) = _
      by_cases hse : s = ""
      · subst hse
        exact Option.noConfusion hd
      · have hd2 : parseDateChars s.data = some d := hd
        simp [dateCellConv, hse, hd2]
    · intro i hi
      have hp := traverseOption_get_pointwise _ _ _ ht i
      rw [hi] at hp
      rw [hp]
      rfl

/-- C2 witness: a column holding two parseable dates converts cleanly,
instantiating the theorem's per-cell branch on a concrete table. -/
theorem c2_witness :
    ((∃ v ∈ [Cell.str "2020-05-01T10:00:00", Cell.str "2020-05-02"],
        dateCellConv v = none) ∧
      lookupCol (DataFrame.mk
          [("trending_date", [Cell.str "2020-05-01", Cell.str "2020-05-02"]),
           ("videos_count", [Cell.int 5, Cell.int 0])]) "trending_date" =
        some [Cell.str "2020-05-01T10:00:00", Cell.str "2020-05-02"]) ∨
    (∃ ws, traverseOption dateCellConv
        [Cell.str "2020-05-01T10:00:00", Cell.str "2020-05-02"] = some ws ∧
      lookupCol (DataFrame.mk
          [("trending_date", [Cell.str "2020-05-01", Cell.str "2020-05-02"]),
           ("videos_count", [Cell.int 5, Cell.int 0])]) "trending_date" = some ws ∧
      (∀ i s d, [Cell.str "2020-05-01T10:00:00", Cell.str "2020-05-02"].get? i =
          some (Cell.str s) → parseDateChars s.toList = some d →
        ws.get? i = some (Cell.str (formatDate d))) ∧
      (∀ i, [Cell.str "2020-05-01T10:00:00", Cell.str "2020-05-02"].get? i = some Cell.na →
        ws.get? i = some Cell.na)) :=
  c2_date_column_outcomes (DataFrame.mk
      [("trending_date", [Cell.str "2020-05-01T10:00:00", Cell.str "2020-05-02"]),
       ("videos_count", [Cell.str "5", Cell.str "x"])]) (1 / 2) _
    (DataFrame.mk
      [("trending_date", [Cell.str "2020-05-01", Cell.str "2020-05-02"]),
       ("videos_count", [Cell.int 5, Cell.int 0])]) rfl rfl

/-- C3 counterexample: the claim says every `videos_count` value of the
result is a non-negative integer, but the input `"-5"` is coerced to
the negative integer `-5`; and on the input `"inf"` the un-guarded
`astype(int)` raises, so no table is returned at all. -/
theorem c3_counterexample :
    preprocess_data (DataFrame.mk [("videos_count", [Cell.str "-5"])]) (1 / 2) =
      Except.ok (DataFrame.mk [("videos_count", [Cell.int (-5)])]) ∧
    (-5 : ℤ) < 0 ∧
    preprocess_data (DataFrame.mk [("videos_count", [Cell.str "inf"])]) (1 / 2) =
      Except.error "ValueError: cannot convert non-finite values (NA or inf) to integer" :=
  ⟨rfl, by decide, rfl⟩

/-- C3 (amended): on any table with a `videos_count` column, whenever
the column's coercion raises no exception, `preprocess_data` returns a
table in which every value of that column is an integer (not
necessarily non-negative) and every unparseable or missing value is
mapped to 0; when some cell's float64 value is non-finite (an infinity
spelling or a literal overflowing float64), the `astype(int)` exception
propagates out of `preprocess_data` and no table is returned. -/
theorem c3_videos_count_integer (df : DataFrame) (t : ℚ) (vs : List Cell)
    (h : lookupCol df "videos_count" = some vs) :
    (∀ ws, traverseExcept coerceCell vs = Except.ok ws →
      ∃ df2, preprocess_data df t = Except.ok df2 ∧
        lookupCol df2 "videos_count" = some ws ∧
        ws.length = vs.length ∧
        (∀ w ∈ ws, ∃ n : ℤ, w = Cell.int n) ∧
        (∀ i s, vs.get? i = some (Cell.str s) → toNumericStr s = F64.nan →
          ws.get? i = some (Cell.int 0)) ∧
        (∀ i, vs.get? i = some Cell.na → ws.get? i = some (Cell.int 0))) ∧
    (∀ e, traverseExcept coerceCell vs = Except.error e →
      preprocess_data df t = Except.error e) := by
  obtain ⟨hfwd, herr⟩ := lookupCol_preprocess_counts df t vs h
  refine ⟨?_, herr⟩
  intro ws hws
  obtain ⟨df2, hpre, hlk⟩ := hfwd ws hws
  refine ⟨df2, hpre, hlk, traverseExcept_ok_length _ _ _ hws, ?_, ?_, ?_⟩
  · intro w hw
    obtain ⟨a, _, hpa⟩ := traverseExcept_ok_mem _ _ _ hws w hw
    exact coerceCell_ok_int a w hpa
  · intro i s hi hnan
    obtain ⟨b, hb, hbi⟩ := traverseExcept_ok_get _ _ _ hws i _ hi
    have hb0 : b = Cell.int 0 := by
      simp [coerceCell, hnan] at hb
      exact hb.symm
    rw [← hb0]
    exact hbi
  · intro i hi
    obtain ⟨b, hb, hbi⟩ := traverseExcept_ok_get _ _ _ hws i _ hi
    have hb0 : b = Cell.int 0 := by
      have h2 : (Except.ok (Cell.int 0) : Except String Cell) = Except.ok b := hb
      cases h2
      rfl
    rw [← hb0]
    exact hbi

/-- C3 witness: instantiating the amended claim on a concrete column
with a parseable, an unparseable and a missing value. -/
theorem c3_witness :
    (∀ ws, traverseExcept coerceCell [Cell.str "7", Cell.str "x", Cell.na] = Except.ok ws →
      ∃ df2, preprocess_data (DataFrame.mk
          [("videos_count", [Cell.str "7", Cell.str "x", Cell.na])]) (1 / 2) =
          Except.ok df2 ∧
        lookupCol df2 "videos_count" = some ws ∧
        ws.length = [Cell.str "7", Cell.str "x", Cell.na].length ∧
        (∀ w ∈ ws, ∃ n : ℤ, w = Cell.int n) ∧
        (∀ i s, [Cell.str "7", Cell.str "x", Cell.na].get? i = some (Cell.str s) →
          toNumericStr s = F64.nan → ws.get? i = some (Cell.int 0)) ∧
        (∀ i, [Cell.str "7", Cell.str "x", Cell.na].get? i = some Cell.na →
          ws.get? i = some (Cell.int 0))) ∧
    (∀ e, traverseExcept coerceCell [Cell.str "7", Cell.str "x", Cell.na] =
        Except.error e →
      preprocess_data (DataFrame.mk
        [("videos_count", [Cell.str "7", Cell.str "x", Cell.na])]) (1 / 2) =
        Except.error e) :=
  c3_videos_count_integer _ _ _ rfl

/-- C4: on any table whose `videos_count` column is
`["10", "abc", "", "-"]`, `preprocess_data` succeeds and yields the
column `[10, 0, 0, 0]`: each cell is coerced independently, so the bad
cells do not affect the good one. -/
theorem c4_integer_coercion_examples (df : DataFrame) (t : ℚ)
    (h : lookupCol df "videos_count" =
      some [Cell.str "10", Cell.str "abc", Cell.str "", Cell.str "-"]) :
    ∃ df2, preprocess_data df t = Except.ok df2 ∧
      lookupCol df2 "videos_count" =
        some [Cell.int 10, Cell.int 0, Cell.int 0, Cell.int 0] :=
  (lookupCol_preprocess_counts df t _ h).1
    [Cell.int 10, Cell.int 0, Cell.int 0, Cell.int 0] rfl

/-- C4 witness: the theorem applied to a concrete one-column table. -/
theorem c4_witness :
    ∃ df2, preprocess_data (DataFrame.mk
        [("videos_count", [Cell.str "10", Cell.str "abc", Cell.str "", Cell.str "-"])])
        (1 / 2) = Except.ok df2 ∧
      lookupCol df2 "videos_count" =
        some [Cell.int 10, Cell.int 0, Cell.int 0, Cell.int 0] :=
  c4_integer_coercion_examples _ _ rfl

/-- C9: the `threshold` parameter of `preprocess_data` has no effect on
the result — its only use, the placeholder-row filter, is commented out
in the source. -/
theorem c9_threshold_no_effect (df : DataFrame) (t1 t2 : ℚ) :
    preprocess_data df t1 = preprocess_data df t2 := rfl

theorem subset_ingestStep (s : List String) (f : IngestFile) : s ⊆ ingestStep s f := by
  unfold ingestStep
  by_cases h1 : existsForYear s f.year = true
  · rw [if_pos h1]
    exact fun _ h => h
  · rw [if_neg h1]
    by_cases h2 : f.rows.isEmpty = true
    · rw [if_pos h2]
      exact fun _ h => h
    · rw [if_neg h2]
      exact List.subset_append_left s f.rows

theorem subset_runIngestion (files : List IngestFile) :
    ∀ s : List String, s ⊆ runIngestion files s := by
  induction files with
  | nil => intro s; exact fun _ h => h
  | cons f fs ih =>
    intro s
    have h1 : runIngestion (f :: fs) s = runIngestion fs (ingestStep s f) := rfl
    rw [h1]
    exact (subset_ingestStep s f).trans (ih (ingestStep s f))

theorem existsForYear_mono (s s2 : List String) (y : Nat) (hsub : s ⊆ s2)
    (h : existsForYear s y = true) : existsForYear s2 y = true := by
  unfold existsForYear at h ⊢
  obtain ⟨d, hd, hp⟩ := List.any_eq_true.mp h
  exact List.any_eq_true.mpr ⟨d, hsub hd, hp⟩

theorem existsForYear_after_run (files : List IngestFile) :
    ∀ s : List String,
      (∀ f ∈ files, f.rows ≠ [] → ∃ d ∈ f.rows, dateInYear f.year d = true) →
      ∀ f ∈ files, f.rows ≠ [] →
      existsForYear (runIngestion files s) f.year = true := by
  induction files with
  | nil => intro s _ f hmem; exact absurd hmem (List.not_mem_nil f)
  | cons g gs ih =>
    intro s hf f hmem hne
    have hrun : runIngestion (g :: gs) s = runIngestion gs (ingestStep s g) := rfl
    rcases List.mem_cons.mp hmem with heq | htail
    · rw [hrun, heq]
      refine existsForYear_mono _ _ _ (subset_runIngestion gs (ingestStep s g)) ?_
      have hner : g.rows ≠ [] := heq ▸ hne
      unfold ingestStep
      by_cases h1 : existsForYear s g.year = true
      · rw [if_pos h1]; exact h1
      · rw [if_neg h1, if_neg (by simpa using hner)]
        obtain ⟨d, hd, hp⟩ := hf g (List.mem_cons_self g gs) hner
        exact List.any_eq_true.mpr ⟨d, List.mem_append_right s hd, hp⟩
    · rw [hrun]
      exact ih (ingestStep s g) (fun f2 h2 => hf f2 (List.mem_cons_of_mem g h2)) f htail hne

theorem runIngestion_noop (files : List IngestFile) :
    ∀ s : List String,
      (∀ f ∈ files, f.rows ≠ [] → existsForYear s f.year = true) →
      runIngestion files s = s := by
  induction files with
  | nil => intro s _; rfl
  | cons g gs ih =>
    intro s hall
    have hstep : ingestStep s g = s := by
      unfold ingestStep
      by_cases h1 : existsForYear s g.year = true
      · rw [if_pos h1]
      · rw [if_neg h1]
        by_cases h2 : g.rows.isEmpty = true
        · rw [if_pos h2]
        · exact absurd (hall g (List.mem_cons_self g gs) (by simpa using h2)) h1
    have hrun : runIngestion (g :: gs) s = runIngestion gs (ingestStep s g) := rfl
    rw [hrun, hstep]
    exact ih s (fun f h2 => hall f (List.mem_cons_of_mem g h2))

/-- C1 counterexample: the file `trending_by_time_2021.csv` holds a
single row dated `2020-05-01`.  After the first run a row with
`trending_date` beginning `2020-` is persisted, yet the second run over
the same input appends another row for year 2020 (the skip check keys
on the filename year 2021, for which no row exists), so the per-year
row count of year 2020 grows from 1 to 2. -/
theorem c1_counterexample :
    existsForYear (runIngestion [⟨2021, ["2020-05-01"]⟩] []) 2020 = true ∧
    yearCount (runIngestion [⟨2021, ["2020-05-01"]⟩] []) 2020 = 1 ∧
    yearCount (runIngestion [⟨2021, ["2020-05-01"]⟩]
      (runIngestion [⟨2021, ["2020-05-01"]⟩] [])) 2020 = 2 := by
  exact ⟨by decide, by decide, by decide⟩

/-- C1 (amended): provided every input file whose loaded-and-normalized
table is non-empty contains at least one row dated in its own filename
year, a second full ingestion run over the same input leaves the
persisted table exactly unchanged — in particular every per-year row
count is stable.  (Without that proviso the guarantee fails, as the
counterexample shows.) -/
theorem c1_second_run_noop (files : List IngestFile) (s : List String)
    (hf : ∀ f ∈ files, f.rows ≠ [] → ∃ d ∈ f.rows, dateInYear f.year d = true) :
    runIngestion files (runIngestion files s) = runIngestion files s ∧
    ∀ y, yearCount (runIngestion files (runIngestion files s)) y =
      yearCount (runIngestion files s) y := by
  have hnoop := runIngestion_noop files (runIngestion files s)
    (fun f hmem hne => existsForYear_after_run files s hf f hmem hne)
  exact ⟨hnoop, fun y => by rw [hnoop]⟩

/-- C1 witness: a well-formed input (the file for 2020 carries
2020-dated rows) on which the second run is a no-op. -/
theorem c1_witness :
    runIngestion [⟨2020, ["2020-05-01", "2020-05-02"]⟩]
        (runIngestion [⟨2020, ["2020-05-01", "2020-05-02"]⟩] []) =
      runIngestion [⟨2020, ["2020-05-01", "2020-05-02"]⟩] [] :=
  (c1_second_run_noop [⟨2020, ["2020-05-01", "2020-05-02"]⟩] [] (by decide)).1

theorem matchTail_patWindow (a b c d : Char)
    (ha : a.isDigit = true) (hb : b.isDigit = true)
    (hc : c.isDigit = true) (hd : d.isDigit = true) :
    matchTail ('t' :: patRest a b c d) =
      some (digitVal a * 1000 + digitVal b * 100 + digitVal c * 10 + digitVal d) := by
  unfold matchTail
  rw [if_pos (show ('t' :: patRest a b c d).length = 25 from rfl)]
  show (if a.isDigit && b.isDigit && c.isDigit && d.isDigit then
    some (digitVal a * 1000 + digitVal b * 100 + digitVal c * 10 + digitVal d)
    else none) = _
  rw [ha, hb, hc, hd]
  rfl

theorem regexSearchYear_append_patWindow (a b c d : Char)
    (ha : a.isDigit = true) (hb : b.isDigit = true)
    (hc : c.isDigit = true) (hd : d.isDigit = true) :
    ∀ q : List Char, regexSearchYear (q ++ patWindow a b c d) =
      some (digitVal a * 1000 + digitVal b * 100 + digitVal c * 10 + digitVal d) := by
  intro q
  induction q with
  | nil =>
    rw [List.nil_append]
    show regexSearchYear ('t' :: patRest a b c d) = _
    unfold regexSearchYear
    rw [matchTail_patWindow a b c d ha hb hc hd]
  | cons x q2 ih =>
    have hm : matchTail (x :: (q2 ++ patWindow a b c d)) = none := by
      unfold matchTail
      rw [if_neg]
      have hplen : (patWindow a b c d).length = 25 := rfl
      simp only [List.length_cons, List.length_append, hplen]
      omega
    rw [List.cons_append]
    unfold regexSearchYear
    rw [hm]
    exact ih

/-- C5: for every path ending in the literal form
`trending_by_time_<4 digits>.csv`, `extract_year_from_path` returns
exactly the embedded four-digit year as an integer. -/
theorem c5_strict_pattern_year (p : List Char) (a b c d : Char)
    (ha : a.isDigit = true) (hb : b.isDigit = true)
    (hc : c.isDigit = true) (hd : d.isDigit = true) :
    extract_year_from_path (p ++ patWindow a b c d) =
      some ((digitVal a * 1000 + digitVal b * 100 + digitVal c * 10 + digitVal d : Nat) : Int) := by
  unfold extract_year_from_path
  rw [regexSearchYear_append_patWindow a b c d ha hb hc hd p]

/-- C5 witness: the path `data/trending_by_time_2018.csv` yields the
year 2018. -/
theorem c5_witness :
    extract_year_from_path ("data/trending_by_time_2018.csv".toList) = some 2018 := by
  have h := c5_strict_pattern_year "data/".toList '2' '0' '1' '8' rfl rfl rfl rfl
  exact h

/-- C6 counterexample: `abc-123.csv` does not match the strict pattern
and its stem `abc-123` does not end in four numeric characters, yet
`extract_year_from_path` returns `-123` (Python `int()` accepts the
sign in the fallback slice) instead of the absence signal. -/
theorem c6_counterexample :
    regexSearchYear ("abc-123.csv".toList) = none ∧
    (fallbackSlice ("abc-123.csv".toList)).all Char.isDigit = false ∧
    extract_year_from_path ("abc-123.csv".toList) = some (-123) :=
  ⟨by decide, by decide, by decide⟩

/-- C6 (amended): for every path that does not match the strict
pattern and whose fallback slice (the last four characters of the stem
before the first dot of the last path component) does not parse as a
Python integer — a condition strictly stronger than "not four numeric
characters", since `int()` also accepts signs, surrounding whitespace
and underscore grouping — the function returns the absence signal; it
is total, so no exception escapes its boundary. -/
theorem c6_fallback_absence (l : List Char)
    (h1 : regexSearchYear l = none)
    (h2 : pyInt (fallbackSlice l) = none) :
    extract_year_from_path l = none := by
  unfold extract_year_from_path
  rw [h1]
  exact h2

/-- C6 witness: `abc.txt` has no strict-pattern match and a
non-numeric fallback slice, so the year is absent. -/
theorem c6_witness : extract_year_from_path ("abc.txt".toList) = none :=
  c6_fallback_absence _ (by decide) (by decide)

/-- C7: `load_data` returns the parsed table on success; on a missing
file or on any parse error it returns the empty table (zero rows)
instead of propagating the failure. -/
theorem c7_load_data_errors (fs : String → Option (List Char)) (path : String) :
    (fs path = none → load_data fs path = DataFrame.mk [] ∧ (DataFrame.mk []).nrows = 0) ∧
    (∀ c df, fs path = some c → parse_csv c = Except.ok df → load_data fs path = df) ∧
    (∀ c e, fs path = some c → parse_csv c = Except.error e →
      load_data fs path = DataFrame.mk [] ∧ (DataFrame.mk []).nrows = 0) := by
  refine ⟨?_, ?_, ?_⟩
  · intro h
    unfold load_data
    rw [h]
    exact ⟨rfl, rfl⟩
  · intro c df h hp
    unfold load_data
    rw [h]
    show (match parse_csv c with
      | Except.ok df2 => df2
      | Except.error _ => DataFrame.mk []) = df
    rw [hp]
  · intro c e h hp
    unfold load_data
    rw [h]
    show (match parse_csv c with
      | Except.ok df2 => df2
      | Except.error _ => DataFrame.mk []) = DataFrame.mk [] ∧ (DataFrame.mk []).nrows = 0
    rw [hp]
    exact ⟨rfl, rfl⟩

/-- C7 witness: a tiny filesystem with a good file, an empty file and a
missing file, instantiating all three branches. -/
theorem c7_witness :
    load_data (fun p => if p == "ok.csv" then some ("a,b\n1,2".toList)
        else if p == "bad.csv" then some [] else none) "miss.csv" = DataFrame.mk [] ∧
    load_data (fun p => if p == "ok.csv" then some ("a,b\n1,2".toList)
        else if p == "bad.csv" then some [] else none) "ok.csv" =
      DataFrame.mk [("a", [Cell.str "1"]), ("b", [Cell.str "2"])] ∧
    load_data (fun p => if p == "ok.csv" then some ("a,b\n1,2".toList)
        else if p == "bad.csv" then some [] else none) "bad.csv" = DataFrame.mk [] ∧
    (DataFrame.mk []).nrows = 0 :=
  ⟨((c7_load_data_errors _ "miss.csv").1 rfl).1,
   (c7_load_data_errors _ "ok.csv").2.1 ("a,b\n1,2".toList)
     (DataFrame.mk [("a", [Cell.str "1"]), ("b", [Cell.str "2"])]) rfl rfl,
   ((c7_load_data_errors _ "bad.csv").2.2 []
     "EmptyDataError: no columns to parse from file" rfl rfl).1,
   rfl⟩

/-- C8 counterexample: with the invalid option `-x` on the command
line, `getopt` parsing of it would fail, yet the process exit code is
0 in a healthy environment — `__main__` never invokes
`parse_arguments`, so no argument-parse failure can reach
`sys.exit(2)`. -/
theorem c8_counterexample :
    (∃ e, getoptModel [['-', 'x']] = Except.error e) ∧
    mainExitCode [['-', 'x']] ⟨true, true, true⟩ = 0 ∧ (0 : Nat) ≠ 2 :=
  ⟨⟨"option not recognized", rfl⟩, rfl, by decide⟩

/-- C8 (amended): the `parse_arguments` helper does exit with the
non-zero code 2 whenever `getopt` parsing fails, but the main program
never calls it — its exit code is independent of the command line, so
supplying an invalid option does not make the process exit 2. -/
theorem c8_parse_failure_code (args : List (List Char)) (e : String) (env : MainEnv)
    (argv2 : List (List Char)) (h : getoptModel args = Except.error e) :
    parse_arguments args = Except.error 2 ∧ (2 : Nat) ≠ 0 ∧
    mainExitCode args env = mainExitCode argv2 env := by
  refine ⟨?_, by decide, rfl⟩
  unfold parse_arguments
  rw [h]

/-- C8 witness: the invalid option `-x` makes `parse_arguments` exit
with code 2 while leaving the main program's exit code unchanged. -/
theorem c8_witness :
    parse_arguments [['-', 'x']] = Except.error 2 ∧ (2 : Nat) ≠ 0 ∧
    mainExitCode [['-', 'x']] ⟨true, true, true⟩ = mainExitCode [] ⟨true, true, true⟩ :=
  c8_parse_failure_code [['-', 'x']] "option not recognized" ⟨true, true, true⟩ [] rfl
